import Mathlib

/-!
Shallow embedding of the polyview activity-sync engine (src/activity.py).

The embedding models:
- the SQLite cache table (CacheManager.init_database, save_activities,
  get_cached_activities, get_all_cached_activities) as a list of rows with
  INSERT OR REPLACE semantics on the UNIQUE(user_address, transaction_hash,
  timestamp) constraint;
- the paginated read path get_user_activity (getPage);
- the full-history sync get_all_user_activity (getAll), with its PROBE step,
  STREAM loop (window filter, intra-page dedup, inversion guard, stop
  conditions) and MERGE step.

Upstream fetches (_fetch_user_activity_from_api) are modelled as a function
from (limit, offset) to Option (List Activity); none stands for the
HTTPException raised after retries are exhausted.  Timestamps are Nat
(the upstream delivers nonnegative integers; the Python default for a
missing field is 0).  json round-trips are lossless, so a stored payload is
the Activity itself.
-/

namespace Polyview

/-- An upstream activity record: the three fields the engine inspects
(transactionHash, conditionId, timestamp) plus an opaque remainder of the
payload, carried verbatim. -/
structure Activity where
  transactionHash : Nat
  conditionId : Nat
  timestamp : Nat
  extra : Nat
deriving DecidableEq, Repr

/-- Timestamp normalization used throughout get_all_user_activity
(src/activity.py lines 565-566, 655-656, 674-675, 705-706, 793-795):
a value greater than 1e10 is millisecond-scale and is floor-divided by 1000. -/
def normTs (t : Nat) : Nat := if 10000000000 < t then t / 1000 else t

/-- Deduplication key used by the sync paths (src/activity.py lines 579-580,
692-693, 778-779): the pair (transactionHash, conditionId). -/
def actKey (a : Activity) : Nat × Nat := (a.transactionHash, a.conditionId)

/-- Python str.lower on the owner address (src/activity.py lines 122, 157,
195, 235, 254): lowercase every character. -/
def lowerStr (s : String) : String := ⟨s.data.map Char.toLower⟩

/-- One row of the user_activities table (src/activity.py lines 85-97):
user_address, transaction_hash, timestamp (the raw value passed to the
INSERT), condition_id and the JSON payload (round-tripped intact). -/
structure CacheRow where
  userAddress : String
  transactionHash : Nat
  timestamp : Nat
  conditionId : Nat
  activityData : Activity
deriving DecidableEq, Repr

/-- The cache database: the rows of user_activities. -/
abbrev CacheDB := List CacheRow

/-- The column triple carrying the UNIQUE constraint of user_activities
(src/activity.py line 95): (user_address, transaction_hash, timestamp). -/
def rowKey (r : CacheRow) : String × Nat × Nat :=
  (r.userAddress, r.transactionHash, r.timestamp)

/-- INSERT OR REPLACE semantics on the UNIQUE(user_address, transaction_hash,
timestamp) constraint: any conflicting row is deleted and the new row is
inserted (src/activity.py lines 190-200). -/
def insertOrReplace (db : CacheDB) (row : CacheRow) : CacheDB :=
  db.filter (fun r => decide (rowKey r ≠ rowKey row)) ++ [row]

/-- The row built by CacheManager.save_activities for one activity
(src/activity.py lines 184-200): the owner is lowercased, the timestamp
column receives the raw activity timestamp, and the full payload is stored. -/
def mkRow (user : String) (a : Activity) : CacheRow :=
  { userAddress := lowerStr user
    transactionHash := a.transactionHash
    timestamp := a.timestamp
    conditionId := a.conditionId
    activityData := a }

/-- CacheManager.save_activities (src/activity.py lines 173-210): one
INSERT OR REPLACE per record, in batch order. -/
def save_activities (user : String) (acts : List Activity) (db : CacheDB) : CacheDB :=
  acts.foldl (fun d a => insertOrReplace d (mkRow user a)) db

/-- The ORDER BY timestamp relation on rows used by get_cached_activities
(src/activity.py lines 141-154); the sort key is the raw stored timestamp
column. -/
def rowLe (desc : Bool) (r s : CacheRow) : Prop :=
  if desc then s.timestamp ≤ r.timestamp else r.timestamp ≤ s.timestamp

instance (desc : Bool) : DecidableRel (rowLe desc) := fun r s => by
  unfold rowLe; infer_instance

instance (desc : Bool) : IsTotal CacheRow (rowLe desc) :=
  ⟨by intro a b; unfold rowLe; split <;> omega⟩

instance (desc : Bool) : IsTrans CacheRow (rowLe desc) :=
  ⟨by intro a b c; unfold rowLe; split <;> omega⟩

/-- Rows of the requested owner, ordered by the timestamp column in the
requested direction (the WHERE and ORDER BY clauses of
get_cached_activities, src/activity.py lines 148-154). -/
def queryRows (db : CacheDB) (user : String) (desc : Bool) : List CacheRow :=
  List.insertionSort (rowLe desc) (db.filter (fun r => decide (r.userAddress = lowerStr user)))

/-- The LIMIT value used by get_cached_activities (src/activity.py line 156):
a missing or falsy limit becomes 999999. -/
def sqlLimit : Option Nat → Nat
  | none => 999999
  | some l => if l = 0 then 999999 else l

/-- CacheManager.get_cached_activities (src/activity.py lines 129-171):
paginated, ordered read of the payloads of one owner. -/
def get_cached_activities (db : CacheDB) (user : String) (limit : Option Nat)
    (offset : Nat) (desc : Bool) : List Activity :=
  ((((queryRows db user desc).drop offset).take (sqlLimit limit)).map
    (fun r => r.activityData))

/-- CacheManager.get_all_cached_activities (src/activity.py lines 212-225):
get_cached_activities with no limit and offset 0. -/
def get_all_cached_activities (db : CacheDB) (user : String) (desc : Bool) : List Activity :=
  get_cached_activities db user none 0 desc

/-- The refresh batch size of get_user_activity (src/activity.py line 454):
max(limit + offset, 500). -/
def cache_update_limit (limit offset : Nat) : Nat := max (limit + offset) 500

/-- The getPage operation get_user_activity (src/activity.py lines 418-501).
With use_cache false the upstream page is returned directly.  With use_cache
true a refresh batch is fetched from offset 0, upserted when nonempty, and
the requested range is served from the cache; if the refresh fetch raises,
the cached range is returned when nonempty, otherwise the error propagates.
Returns the result (none = HTTPException) and the resulting cache state. -/
def get_user_activity (db : CacheDB) (user : String) (limit offset : Nat)
    (desc : Bool) (useCache : Bool) (fetch : Nat → Nat → Option (List Activity)) :
    Option (List Activity) × CacheDB :=
  if !useCache then
    (fetch limit offset, db)
  else
    match fetch (cache_update_limit limit offset) 0 with
    | some latest =>
      let db2 := if latest = [] then db else save_activities user latest db
      (some (get_cached_activities db2 user (some limit) offset desc), db2)
    | none =>
      let cached := get_cached_activities db user (some limit) offset desc
      if cached = [] then (none, db) else (some cached, db)

/-- The retention-window filter used on the PROBE page and on cached data
(src/activity.py lines 562-568, 574-581, 791-806): every item whose
normalized timestamp reaches the cutoff is kept; no early stop. -/
def probeFilter (cutoff : Nat) (l : List Activity) : List Activity :=
  l.filter (fun a => decide (cutoff ≤ normTs a.timestamp))

/-- The retention-window filter of the STREAM loop (src/activity.py lines
650-663): items are scanned in order and the scan stops at the first item
older than the cutoff, discarding the remainder of the page. -/
def windowFilter (cutoff : Nat) : List Activity → List Activity
  | [] => []
  | a :: l => if cutoff ≤ normTs a.timestamp then a :: windowFilter cutoff l else []

/-- The intra-page deduplication pass (src/activity.py lines 689-696 and the
merge passes at lines 769-806): keep the first occurrence of each
(transactionHash, conditionId) key, starting from an initial seen set. -/
def dedupAux (seen : List (Nat × Nat)) : List Activity → List Activity
  | [] => []
  | a :: l =>
    if actKey a ∈ seen then dedupAux seen l
    else a :: dedupAux (actKey a :: seen) l

/-- Intra-page deduplication starting from an empty seen set. -/
def dedupByKey (l : List Activity) : List Activity := dedupAux [] l

/-- The minimum normalized timestamp of a batch (src/activity.py lines
703-709); the Python min is only evaluated on nonempty batches. -/
def minNormTs : List Activity → Nat
  | [] => 0
  | a :: l => l.foldl (fun m b => min m (normTs b.timestamp)) (normTs a.timestamp)

/-- The order-inversion guard condition (src/activity.py lines 670-685):
with a recorded previous-page minimum, stop when the current page's first
retained normalized timestamp is strictly greater. -/
def inversionStop (lastMin : Option Nat) (firstTs : Nat) : Bool :=
  match lastMin with
  | none => false
  | some m => decide (m < firstTs)

/-- The max_records stop test (src/activity.py line 732): max_records must be
truthy and the accumulator must have reached it. -/
def mrHit (mr : Option Nat) (n : Nat) : Bool :=
  match mr with
  | none => false
  | some m => decide (m ≠ 0) && decide (m ≤ n)

/-- The max_records truncation applied to the merged result (src/activity.py
lines 829-831): only a truthy max_records truncates. -/
def truncateMr (mr : Option Nat) (l : List Activity) : List Activity :=
  match mr with
  | none => l
  | some m => if m = 0 then l else l.take m

/-- The sort relation of the final merge (src/activity.py lines 811-815):
the key is the raw timestamp field, reversed exactly when the direction is
DESC; the Python sort is stable. -/
def tsLeProp (desc : Bool) (a b : Activity) : Prop :=
  if desc then b.timestamp ≤ a.timestamp else a.timestamp ≤ b.timestamp

instance (desc : Bool) : DecidableRel (tsLeProp desc) := fun a b => by
  unfold tsLeProp; infer_instance

instance (desc : Bool) : IsTotal Activity (tsLeProp desc) :=
  ⟨by intro a b; unfold tsLeProp; split <;> omega⟩

instance (desc : Bool) : IsTrans Activity (tsLeProp desc) :=
  ⟨by intro a b c; unfold tsLeProp; split <;> omega⟩

/-- The MERGE step of get_all_user_activity (src/activity.py lines 759-818):
the streamed accumulator is deduplicated first (its keys win), cached items
within the retention window whose key is not already seen are appended, and
the whole list is stably sorted by the raw timestamp field. -/
def mergeData (api cached : List Activity) (cutoff : Nat) (desc : Bool) : List Activity :=
  List.insertionSort (tsLeProp desc)
    (dedupAux [] api ++ dedupAux (api.map actKey) (probeFilter cutoff cached))

/-- The PROBE step of get_all_user_activity (src/activity.py lines 546-611):
with a nonempty cache, one page is fetched at offset 0; on fetch failure, an
empty page, or a fully-cached or fully-stale filtered page, the stream is
handed an empty accumulator at offset 0, otherwise the filtered (not yet
deduplicated) page is carried forward and the stream starts at batch_size. -/
def probeStep (fetch : Nat → Nat → Option (List Activity)) (cutoff bs : Nat)
    (cachedData : List Activity) : List Activity × Nat :=
  if cachedData = [] then ([], 0)
  else
    match fetch bs 0 with
    | none => ([], 0)
    | some firstBatch =>
      if firstBatch = [] then ([], 0)
      else
        match probeFilter cutoff firstBatch with
        | [] => ([], 0)
        | f :: fs =>
          if (f :: fs).all
              (fun a => decide (actKey a ∈ (probeFilter cutoff cachedData).map actKey))
          then ([], 0)
          else (f :: fs, bs)

/-- The STREAM loop of get_all_user_activity (src/activity.py lines 626-755).
Each iteration fetches a page at the current offset (a terminal fetch error
propagates as none), stops on an empty page or an empty window-filtered page,
applies the inversion guard, deduplicates the page, appends it, incrementally
saves it when use_cache is set, and then checks the stop conditions in source
order: window-truncated page, max_records (with truncation), offset ceiling
10000 tested after the offset advances.  The fuel argument only bounds the
recursion; 10002 iterations are more than any run with a positive batch size
can use, because the offset grows by at least one per iteration and the loop
stops beyond 10000. -/
def streamLoop (user : String) (fetch : Nat → Nat → Option (List Activity))
    (cutoff bs : Nat) (mr : Option Nat) (useCache : Bool) :
    Nat → Nat → Option Nat → List Activity → CacheDB → Option (List Activity) × CacheDB
  | 0, _, _, _, db => (none, db)
  | fuel + 1, offset, lastMin, acc, db =>
    match fetch bs offset with
    | none => (none, db)
    | some batch =>
      if batch = [] then (some acc, db)
      else
        match windowFilter cutoff batch with
        | [] => (some acc, db)
        | f :: fs =>
          if inversionStop lastMin (normTs f.timestamp) then (some acc, db)
          else
            let uniq := dedupByKey (f :: fs)
            let lastMin2 := if uniq = [] then lastMin else some (minNormTs uniq)
            let acc2 := acc ++ uniq
            let db2 := if useCache && decide (uniq ≠ []) then save_activities user uniq db else db
            if (f :: fs).length < batch.length then (some acc2, db2)
            else if mrHit mr acc2.length then (some (acc2.take (mr.getD 0)), db2)
            else if 10000 < offset + bs then (some acc2, db2)
            else streamLoop user fetch cutoff bs mr useCache fuel (offset + bs) lastMin2 acc2 db2

/-- The tail of get_all_user_activity after the STREAM loop (src/activity.py
lines 757-837): a raised stream propagates; with an empty cache the
accumulator is returned as is; otherwise the merge runs, the accumulator is
saved once more when nonempty, and max_records truncates the merged list. -/
def mergePhase (user : String) (cachedData : List Activity) (cutoff : Nat)
    (desc : Bool) (mr : Option Nat) :
    Option (List Activity) × CacheDB → Option (List Activity) × CacheDB
  | (none, dbx) => (none, dbx)
  | (some allActs, dbx) =>
    if cachedData = [] then (some allActs, dbx)
    else
      (some (truncateMr mr (mergeData allActs cachedData cutoff desc)),
       if allActs = [] then dbx else save_activities user allActs dbx)

/-- The getAll operation get_all_user_activity (src/activity.py lines
504-837).  The cache is read once up front regardless of use_cache (lines
528-535); batch_size is capped at 500 (line 544); the PROBE step runs when
the cache is nonempty; the STREAM loop is skipped when the probe left an
empty accumulator while the cache is nonempty (line 622); the MERGE phase
finishes.  cutoff is the retention-window timestamp (line 539).  Returns
the result (none = HTTPException raised) and the resulting cache state. -/
def get_all_user_activity (db : CacheDB) (user : String)
    (fetch : Nat → Nat → Option (List Activity)) (cutoff : Nat) (desc : Bool)
    (batchSize : Nat) (mr : Option Nat) (useCache : Bool) :
    Option (List Activity) × CacheDB :=
  let cachedData := get_all_cached_activities db user desc
  let bs := min batchSize 500
  let probe := probeStep fetch cutoff bs cachedData
  let stream :=
    if probe.1 = [] ∧ cachedData ≠ [] then (some ([] : List Activity), db)
    else streamLoop user fetch cutoff bs mr useCache 10002 probe.2 none probe.1 db
  mergePhase user cachedData cutoff desc mr stream

/-! Concrete scenario inputs used by the per-claim theorems below. -/

/-- Scenario record A: key (1, 1), timestamp 2000. -/
def actA : Activity := ⟨1, 1, 2000, 0⟩

/-- Scenario record B: key (2, 2), timestamp 1900. -/
def actB : Activity := ⟨2, 2, 1900, 0⟩

/-- Scenario record C: key (3, 3), timestamp 1800. -/
def actC : Activity := ⟨3, 3, 1800, 0⟩

/-- Scenario A upstream: page {A, B} at offset 0, page {B, C} at offset 2,
then empty pages; all timestamps descending and inside the window. -/
def pagesScenA : Nat → Nat → Option (List Activity) :=
  fun _ off =>
    if off = 0 then some [actA, actB]
    else if off = 2 then some [actB, actC] else some []

/-- C1: the claim fails on the code.  On an empty cache the MERGE
deduplication and sort are skipped entirely (src/activity.py lines 760 and
835-837) and the intra-page dedup of the STREAM loop is reset on every page,
so the overlapping key B is returned twice: the result of the Scenario A
sync is [A, B, B, C], which has a repeated identityKey. -/
theorem getAll_scenarioA_duplicate_key :
    (get_all_user_activity [] "u" pagesScenA 1000 true 2 none true).1 =
      some [actA, actB, actB, actC] ∧
    ¬ (([actA, actB, actB, actC].map actKey).Nodup) := by
  constructor
  · decide
  · decide

/-- C1 amended: for a getAll full-history sync on an owner whose cache is
empty, the result is the concatenation of the window-filtered, per-page
deduplicated pages in fetch order, with no cross-page deduplication and no
final sort; in Scenario A this is [A, B, B, C]: it contains B twice, and is
(non-strictly) timestamp-descending only because the pages arrived so. -/
theorem getAll_scenarioA_result :
    (get_all_user_activity [] "u" pagesScenA 1000 true 2 none true).1 =
      some (dedupByKey [actA, actB] ++ dedupByKey [actB, actC]) ∧
    [actA, actB, actB, actC].Sorted (tsLeProp true) := by
  constructor
  · decide
  · decide

/-- Cached row for the Scenario C style run: owner u holds key (9, 9). -/
def rowScenC : CacheRow := mkRow "u" ⟨9, 9, 1500, 0⟩

/-- Scenario C upstream: the probe page at offset 0 yields a new record, and
every later fetch fails terminally (retries exhausted). -/
def pagesScenC : Nat → Nat → Option (List Activity) :=
  fun _ off => if off = 0 then some [⟨1, 1, 1400, 0⟩] else none

/-- C2: the claim fails on the code.  A terminal fetch error inside the
STREAM loop is re-raised unconditionally (src/activity.py lines 748-749),
even though the cache is nonempty and a page has already been accumulated:
this getAll call raises instead of returning accumulated-plus-cached data. -/
theorem getAll_stream_failure_raises :
    (get_all_user_activity [rowScenC] "u" pagesScenC 1000 true 500 none true).1 = none ∧
    get_all_cached_activities [rowScenC] "u" true ≠ [] := by
  constructor
  · decide
  · decide

/-- Millisecond-scale record: raw timestamp 2e12, normalized 2e9. -/
def msAct : Activity := ⟨1, 1, 2000000000000, 0⟩

/-- Second-scale record: timestamp 3e9 (normalized to itself). -/
def sAct : Activity := ⟨2, 2, 3000000000, 0⟩

/-- Cache holding the second-scale record for owner u. -/
def rowMs : CacheRow := mkRow "u" sAct

/-- Upstream for the C3 run: one page with the millisecond-scale record. -/
def pagesMs : Nat → Nat → Option (List Activity) :=
  fun _ off => if off = 0 then some [msAct] else some []

/-- C3: the claim fails on the code.  The cache upsert stores the raw
timestamp (src/activity.py line 185: no division before the INSERT), and the
merge sort key is the raw timestamp (line 813): although the millisecond
record normalizes to 2e9, strictly below the cached record's 3e9, the merged
descending result puts the millisecond record first because its raw value is
larger. -/
theorem timestamps_not_normalized_in_storage_and_sort :
    (save_activities "u" [msAct] []).map (fun r => r.timestamp) = [2000000000000] ∧
    normTs msAct.timestamp < normTs sAct.timestamp ∧
    (get_all_user_activity [rowMs] "u" pagesMs 0 true 500 none true).1 =
      some [msAct, sAct] := by
  refine ⟨by decide, by decide, by decide⟩

/-- Cached row for the C4 run: owner u holds key (5, 5) inside the window. -/
def rowUC : CacheRow := mkRow "u" ⟨5, 5, 1500, 0⟩

/-- C4: the claim fails on the code.  With use_cache false, the cache is
still read up front (src/activity.py lines 528-535) and merged into the
result (line 760): here the upstream returns no records at all, yet the
call returns the cached record. -/
theorem getAll_useCache_false_still_reads_cache :
    (get_all_user_activity [rowUC] "u" (fun _ _ => some []) 1000 true 500 none false).1 =
      some [⟨5, 5, 1500, 0⟩] := by
  decide

/-- Upstream for the C5 run: a full in-window page of three records, then a
page whose third record is outside the window. -/
def pagesMr : Nat → Nat → Option (List Activity) :=
  fun _ off =>
    if off = 0 then some [⟨1, 1, 2000, 0⟩, ⟨2, 2, 1900, 0⟩, ⟨3, 3, 1800, 0⟩]
    else if off = 3 then some [⟨4, 4, 1700, 0⟩, ⟨5, 5, 1600, 0⟩, ⟨6, 6, 500, 0⟩]
    else some []

/-- C5: the claim fails on the code.  The window-truncated-page stop
(src/activity.py line 727) fires before the max_records check (line 732),
and the empty-cache return path (line 837) applies no truncation: with
max_records 4 this sync returns 5 records. -/
theorem getAll_maxRecords_exceeded :
    (get_all_user_activity [] "u" pagesMr 1000 true 3 (some 4) true).1 =
      some [⟨1, 1, 2000, 0⟩, ⟨2, 2, 1900, 0⟩, ⟨3, 3, 1800, 0⟩,
            ⟨4, 4, 1700, 0⟩, ⟨5, 5, 1600, 0⟩] ∧
    ¬ ([⟨1, 1, 2000, 0⟩, ⟨2, 2, 1900, 0⟩, ⟨3, 3, 1800, 0⟩,
        ⟨4, 4, 1700, 0⟩, (⟨5, 5, 1600, 0⟩ : Activity)].length ≤ 4) := by
  constructor
  · decide
  · decide

/-- C7: the claim fails on the code.  The table's uniqueness constraint is
UNIQUE(user_address, transaction_hash, timestamp) (src/activity.py line 95),
so two upserted records sharing the identityKey (transactionHash = 1,
conditionId = 2) but differing in timestamp are both stored: the cache holds
two entries for one (owner, identityKey) pair. -/
theorem cache_identity_key_not_unique :
    ((save_activities "u" [⟨1, 2, 100, 0⟩, ⟨1, 2, 200, 0⟩] []).filter
      (fun r => decide (r.userAddress = "u" ∧ r.transactionHash = 1 ∧
        r.conditionId = 2))).length = 2 := by
  decide

/-- Cached row for the C8 run: owner u holds key (9, 9). -/
def rowInv : CacheRow := mkRow "u" ⟨9, 9, 1500, 0⟩

/-- Upstream for the C8 run: the probe page carries one new record with
timestamp 1500 forward; the first streamed page's record has timestamp
1600, strictly greater than the probe page minimum. -/
def pagesInv : Nat → Nat → Option (List Activity) :=
  fun _ off =>
    if off = 0 then some [⟨1, 1, 1500, 0⟩]
    else if off = 500 then some [⟨2, 2, 1600, 0⟩] else some []

/-- C8: the claim fails on the code.  last_batch_min_timestamp is
initialized to None after the PROBE block (src/activity.py line 619), so the
inversion guard is disarmed on the first streamed page following a
carried-forward probe page: the page with first timestamp 1600 > 1500 is
appended instead of stopping the stream, and its record appears in the
result. -/
theorem inversion_after_probe_not_detected :
    minNormTs (probeFilter 1000 [⟨1, 1, 1500, 0⟩]) < normTs (1600 : Nat) ∧
    (get_all_user_activity [rowInv] "u" pagesInv 1000 true 500 none true).1 =
      some [⟨2, 2, 1600, 0⟩, ⟨1, 1, 1500, 0⟩, ⟨9, 9, 1500, 0⟩] ∧
    (⟨2, 2, 1600, 0⟩ : Activity) ∈ [(⟨2, 2, 1600, 0⟩ : Activity), ⟨1, 1, 1500, 0⟩, ⟨9, 9, 1500, 0⟩] := by
  refine ⟨by decide, by decide, by decide⟩

/-! Store algebra: an extensional description of a batch of INSERT OR
REPLACE operations, used for the upsert idempotence and key-uniqueness
results. -/

/-- Folding insertOrReplace over a list of rows. -/
def applyRows (db : CacheDB) (rows : List CacheRow) : CacheDB :=
  rows.foldl insertOrReplace db

/-- Whether some row of the batch shares the constraint triple with r. -/
def keyHit (rows : List CacheRow) (r : CacheRow) : Bool :=
  rows.any (fun x => decide (rowKey x = rowKey r))

/-- The rows of the batch that are not superseded by a later row with the
same constraint triple, in batch order. -/
def keepLast : List CacheRow → List CacheRow
  | [] => []
  | r :: rs => if keyHit rs r then keepLast rs else r :: keepLast rs

/-- The rows of the store whose constraint triple does not occur in the
batch. -/
def dropKeys (rows : List CacheRow) (db : CacheDB) : CacheDB :=
  db.filter (fun x => !(keyHit rows x))

theorem keyHit_cons (r : CacheRow) (rs : List CacheRow) (x : CacheRow) :
    keyHit (r :: rs) x = (decide (rowKey r = rowKey x) || keyHit rs x) := by
  simp [keyHit, List.any_cons]

theorem keyHit_of_mem {rows : List CacheRow} {x : CacheRow} (h : x ∈ rows) :
    keyHit rows x = true := by
  simp only [keyHit, List.any_eq_true]
  exact ⟨x, h, by simp⟩

theorem mem_keepLast_subset : ∀ {rows : List CacheRow} {x : CacheRow},
    x ∈ keepLast rows → x ∈ rows := by
  intro rows
  induction rows with
  | nil => intro x h; simp [keepLast] at h
  | cons r rs ih =>
    intro x h
    by_cases hk : keyHit rs r = true
    · simp only [keepLast, hk, if_true] at h
      exact List.mem_cons_of_mem r (ih h)
    · simp only [keepLast, hk, if_false] at h
      rcases List.mem_cons.mp h with h | h
      · simp [h]
      · exact List.mem_cons_of_mem r (ih h)

theorem dropKeys_cons_pred (r : CacheRow) (rs : List CacheRow) (x : CacheRow) :
    (!keyHit rs x && decide (rowKey x ≠ rowKey r)) = !keyHit (r :: rs) x := by
  rw [keyHit_cons]
  by_cases h : rowKey x = rowKey r
  · simp [h]
  · simp [h, Ne.symm h]

theorem dropKeys_insertOrReplace (r : CacheRow) (rs : List CacheRow) (db : CacheDB) :
    dropKeys rs (insertOrReplace db r) =
      dropKeys (r :: rs) db ++ (if keyHit rs r then [] else [r]) := by
  simp only [dropKeys, insertOrReplace, List.filter_append, List.filter_filter]
  congr 1
  · apply List.filter_congr
    intro x _
    exact dropKeys_cons_pred r rs x
  · by_cases hk : keyHit rs r = true <;> simp [hk]

theorem applyRows_eq (rows : List CacheRow) : ∀ db : CacheDB,
    applyRows db rows = dropKeys rows db ++ keepLast rows := by
  induction rows with
  | nil =>
    intro db
    simp [applyRows, dropKeys, keepLast, keyHit]
  | cons r rs ih =>
    intro db
    have step : applyRows db (r :: rs) = applyRows (insertOrReplace db r) rs := rfl
    rw [step, ih, dropKeys_insertOrReplace]
    by_cases hk : keyHit rs r = true
    · rw [hk]
      simp only [if_true, List.append_nil]
      have hkeep : keepLast (r :: rs) = keepLast rs := by simp [keepLast, hk]
      rw [hkeep]
    · rw [Bool.not_eq_true] at hk
      rw [hk]
      simp only [Bool.false_eq_true, if_false]
      have hkeep : keepLast (r :: rs) = r :: keepLast rs := by simp [keepLast, hk]
      rw [hkeep, List.append_assoc, List.singleton_append]

theorem dropKeys_dropKeys (rows : List CacheRow) (db : CacheDB) :
    dropKeys rows (dropKeys rows db) = dropKeys rows db := by
  simp only [dropKeys, List.filter_filter, Bool.and_self]

theorem dropKeys_keepLast (rows : List CacheRow) :
    dropKeys rows (keepLast rows) = [] := by
  simp only [dropKeys, List.filter_eq_nil_iff]
  intro x hx
  have := keyHit_of_mem (mem_keepLast_subset hx)
  simp [this]

theorem applyRows_idem (db : CacheDB) (rows : List CacheRow) :
    applyRows (applyRows db rows) rows = applyRows db rows := by
  rw [applyRows_eq, applyRows_eq]
  rw [show dropKeys rows (dropKeys rows db ++ keepLast rows) =
      dropKeys rows (dropKeys rows db) ++ dropKeys rows (keepLast rows) from
    List.filter_append _ _]
  rw [dropKeys_dropKeys, dropKeys_keepLast, List.append_nil]

theorem save_activities_eq_applyRows (user : String) (acts : List Activity) (db : CacheDB) :
    save_activities user acts db = applyRows db (acts.map (mkRow user)) := by
  simp [save_activities, applyRows, List.foldl_map]

/-- C10: upsert is idempotent.  save_activities applied twice with the same
owner and batch leaves the store exactly as after the first application; in
particular the induced map from identity key to stored payload is
unchanged by the second call. -/
theorem upsert_idempotent (user : String) (acts : List Activity) (db : CacheDB) :
    save_activities user acts (save_activities user acts db) =
      save_activities user acts db := by
  simp only [save_activities_eq_applyRows]
  exact applyRows_idem db (acts.map (mkRow user))

theorem keepLast_keys_nodup : ∀ rows : List CacheRow,
    ((keepLast rows).map rowKey).Nodup := by
  intro rows
  induction rows with
  | nil => simp [keepLast]
  | cons r rs ih =>
    by_cases hk : keyHit rs r = true
    · simpa [keepLast, hk] using ih
    · rw [Bool.not_eq_true] at hk
      simp only [keepLast, hk, Bool.false_eq_true, if_false, List.map_cons, List.nodup_cons]
      refine ⟨?_, ih⟩
      intro hmem
      rcases List.mem_map.mp hmem with ⟨y, hy, hyk⟩
      have hyr : y ∈ rs := mem_keepLast_subset hy
      have : keyHit rs r = true := by
        simp only [keyHit, List.any_eq_true]
        exact ⟨y, hyr, by simp [hyk]⟩
      rw [hk] at this
      exact Bool.false_ne_true this

theorem applyRows_keys_nodup (db : CacheDB) (rows : List CacheRow)
    (h : (db.map rowKey).Nodup) : ((applyRows db rows).map rowKey).Nodup := by
  rw [applyRows_eq, List.map_append]
  refine List.Nodup.append ?_ (keepLast_keys_nodup rows) ?_
  · exact h.sublist (List.Sublist.map rowKey (List.filter_sublist db))
  · intro k hk1 hk2
    rcases List.mem_map.mp hk1 with ⟨x, hx, hxk⟩
    rcases List.mem_map.mp hk2 with ⟨y, hy, hyk⟩
    have hxr : keyHit rows x = false := by
      have := (List.mem_filter.mp hx).2
      simpa using this
    have hyr : y ∈ rows := mem_keepLast_subset hy
    have : keyHit rows x = true := by
      simp only [keyHit, List.any_eq_true]
      exact ⟨y, hyr, by simp [hyk, hxk]⟩
    rw [hxr] at this
    exact Bool.false_ne_true this

/-- C7 amended: the cache holds at most one row per constraint triple
(owner, transactionHash, timestamp) — not per (owner, identityKey) — and a
repeated upsert with the same (transactionHash, timestamp) replaces the
stored payload.  The first conjunct is the uniqueness invariant preserved
by save_activities; the second is the replacement law for rows agreeing on
the constraint triple. -/
theorem cache_rowKey_unique (user : String) (acts : List Activity) (db : CacheDB)
    (h : (db.map rowKey).Nodup) :
    (((save_activities user acts db).map rowKey).Nodup) ∧
    (∀ a b : Activity, a.transactionHash = b.transactionHash →
      a.timestamp = b.timestamp → ∀ d : CacheDB,
        save_activities user [b] (save_activities user [a] d) =
          save_activities user [b] d) := by
  constructor
  · rw [save_activities_eq_applyRows]
    exact applyRows_keys_nodup db (acts.map (mkRow user)) h
  · intro a b htx hts d
    have hkey : rowKey (mkRow user a) = rowKey (mkRow user b) := by
      simp [rowKey, mkRow, htx, hts]
    show insertOrReplace (insertOrReplace d (mkRow user a)) (mkRow user b) =
      insertOrReplace d (mkRow user b)
    simp [insertOrReplace, List.filter_append, List.filter_filter, hkey]


/-- Witness for the C7 amended theorem at a concrete input: starting from
the empty store, upserting one record yields a store with pairwise distinct
constraint triples. -/
theorem cache_rowKey_unique_witness :
    ((save_activities "u" [⟨1, 2, 100, 0⟩] []).map rowKey).Nodup :=
  (cache_rowKey_unique "u" [⟨1, 2, 100, 0⟩] [] (by simp)).1

/-- C9: getPage failure policy with use_cache true.  If the refresh fetch
fails, the cached range is returned when it is nonempty and the error
propagates otherwise; and a fetch failure with an empty cached range is the
only way the call can fail. -/
theorem getPage_fetch_failure_policy (db : CacheDB) (user : String) (limit offset : Nat)
    (desc : Bool) (fetch : Nat → Nat → Option (List Activity)) :
    (fetch (cache_update_limit limit offset) 0 = none →
      get_user_activity db user limit offset desc true fetch =
        (if get_cached_activities db user (some limit) offset desc = []
         then (none, db)
         else (some (get_cached_activities db user (some limit) offset desc), db))) ∧
    ((get_user_activity db user limit offset desc true fetch).1 = none ↔
      (fetch (cache_update_limit limit offset) 0 = none ∧
        get_cached_activities db user (some limit) offset desc = [])) := by
  constructor
  · intro hf
    simp only [get_user_activity, Bool.not_true, Bool.false_eq_true, if_false, hf]
  · cases hf : fetch (cache_update_limit limit offset) 0 with
    | none =>
      simp only [get_user_activity, Bool.not_true, Bool.false_eq_true, if_false, hf]
      by_cases hc : get_cached_activities db user (some limit) offset desc = [] <;>
        simp [hc]
    | some lst =>
      simp only [get_user_activity, Bool.not_true, Bool.false_eq_true, if_false, hf]
      simp

/-- Witness for the C9 theorem at a concrete input: on an empty cache with a
failing fetch, getPage fails. -/
theorem getPage_fetch_failure_policy_witness :
    get_user_activity [] "u" 10 0 true true (fun _ _ => none) = (none, []) := by
  have h := (getPage_fetch_failure_policy [] "u" 10 0 true (fun _ _ => none)).1 rfl
  simpa using h

/-- Upstream pair for the C6 counterexample: both functions agree on every
request of size 100 (and indeed on every size except 500). -/
def fetchAt500 : Nat → Nat → Option (List Activity) :=
  fun l _ => if l = 500 then some [⟨1, 1, 100, 0⟩] else some []

/-- Upstream returning an empty page for every request. -/
def fetchEmpty : Nat → Nat → Option (List Activity) := fun _ _ => some []

/-- C6: the claim fails on the code.  The refresh floor is 500, not 100
(src/activity.py line 454: max(limit + offset, 500)): for getPage(limit=10,
offset=0) the code requests max(10, 500) = 500 records, and two upstreams
that agree on every request of size max(10, 100) = 100 still produce
different getPage results, so the refresh batch is not of size 100. -/
theorem getPage_refresh_floor_not_100 :
    cache_update_limit 10 0 = 500 ∧
    (∀ off : Nat, fetchAt500 (max (10 + 0) 100) off = fetchEmpty (max (10 + 0) 100) off) ∧
    get_user_activity [] "u" 10 0 true true fetchAt500 ≠
      get_user_activity [] "u" 10 0 true true fetchEmpty := by
  refine ⟨by decide, fun off => by simp [fetchAt500, fetchEmpty], by decide⟩

/-- C6 amended: for every getPage call with use_cache true, the refresh
batch is requested from offset 0 with size max(limit + offset, 500) — a
refresh floor of 500, not 100; on a successful nonempty fetch the batch is
upserted and the first limit cached records of the requested range, in the
requested sort order, are returned (at most limit records when limit is
nonzero). -/
theorem getPage_refresh_batch (db : CacheDB) (user : String) (limit offset : Nat)
    (desc : Bool) (fetch : Nat → Nat → Option (List Activity)) (batch : List Activity)
    (hf : fetch (max (limit + offset) 500) 0 = some batch) (hb : batch ≠ []) :
    cache_update_limit limit offset = max (limit + offset) 500 ∧
    get_user_activity db user limit offset desc true fetch =
      (some (get_cached_activities (save_activities user batch db) user (some limit)
        offset desc), save_activities user batch db) ∧
    (limit ≠ 0 →
      (get_cached_activities (save_activities user batch db) user (some limit)
        offset desc).length ≤ limit) := by
  refine ⟨rfl, ?_, ?_⟩
  · simp only [get_user_activity, Bool.not_true, Bool.false_eq_true, if_false]
    have hf2 : fetch (cache_update_limit limit offset) 0 = some batch := hf
    rw [hf2]
    simp [hb]
  · intro hl
    simp only [get_cached_activities, List.length_map]
    calc (((queryRows (save_activities user batch db) user desc).drop offset).take
        (sqlLimit (some limit))).length ≤ sqlLimit (some limit) :=
          (List.length_take _ _).trans_le (min_le_left _ _)
      _ = limit := by simp [sqlLimit, hl]

/-- Witness for the C6 amended theorem at a concrete input. -/
theorem getPage_refresh_batch_witness :
    get_user_activity [] "u" 10 0 true true fetchAt500 =
      (some (get_cached_activities (save_activities "u" [⟨1, 1, 100, 0⟩] []) "u" (some 10)
        0 true), save_activities "u" [⟨1, 1, 100, 0⟩] []) :=
  (getPage_refresh_batch [] "u" 10 0 true fetchAt500 [⟨1, 1, 100, 0⟩]
    (by decide) (by decide)).2.1

theorem streamLoop_fst_ind (user : String) (fetch : Nat → Nat → Option (List Activity))
    (cutoff bs : Nat) (mr : Option Nat) :
    ∀ (fuel offset : Nat) (lm : Option Nat) (acc : List Activity)
      (uc1 uc2 : Bool) (db1 db2 : CacheDB),
      (streamLoop user fetch cutoff bs mr uc1 fuel offset lm acc db1).1 =
      (streamLoop user fetch cutoff bs mr uc2 fuel offset lm acc db2).1 := by
  intro fuel
  induction fuel with
  | zero => intros; rfl
  | succ n ih =>
    intro offset lm acc uc1 uc2 db1 db2
    simp only [streamLoop]
    cases hfe : fetch bs offset with
    | none => rfl
    | some batch =>
      by_cases hb : batch = []
      · simp [hb]
      · simp only [hb, if_false]
        cases hw : windowFilter cutoff batch with
        | nil => rfl
        | cons f fs =>
          by_cases hinv : inversionStop lm (normTs f.timestamp) = true
          · simp [hinv]
          · simp only [hinv, Bool.false_eq_true, if_false]
            split_ifs <;> first | rfl | exact ih (offset + bs) _ _ uc1 uc2 _ _

theorem mergePhase_fst (user : String) (cd : List Activity) (cutoff : Nat)
    (desc : Bool) (mr : Option Nat) (p q : Option (List Activity) × CacheDB)
    (h : p.1 = q.1) :
    (mergePhase user cd cutoff desc mr p).1 = (mergePhase user cd cutoff desc mr q).1 := by
  obtain ⟨po, pdb⟩ := p
  obtain ⟨qo, qdb⟩ := q
  simp only at h
  subst h
  cases po with
  | none => rfl
  | some l =>
    simp only [mergePhase]
    by_cases hcd : cd = [] <;> simp [hcd]

/-- C4 amended: use_cache = false does not start from an empty cached set.
The code reads the cache up front and merges it regardless of the flag
(src/activity.py lines 528-535, 759-760); use_cache only gates the
incremental cache writes of the STREAM loop (line 717), so the data
returned by getAll is identical with use_cache false and true —
it is not determined by the upstream responses alone. -/
theorem getAll_result_ignores_useCache (db : CacheDB) (user : String)
    (fetch : Nat → Nat → Option (List Activity)) (cutoff : Nat) (desc : Bool)
    (batchSize : Nat) (mr : Option Nat) :
    (get_all_user_activity db user fetch cutoff desc batchSize mr false).1 =
    (get_all_user_activity db user fetch cutoff desc batchSize mr true).1 := by
  simp only [get_all_user_activity]
  by_cases hskip :
      (probeStep fetch cutoff (min batchSize 500)
        (get_all_cached_activities db user desc)).1 = [] ∧
      get_all_cached_activities db user desc ≠ []
  · rw [if_pos hskip, if_pos hskip]
  · rw [if_neg hskip, if_neg hskip]
    exact mergePhase_fst user _ cutoff desc mr _ _
      (streamLoop_fst_ind user fetch cutoff (min batchSize 500) mr 10002 _ none _
        false true db db)

theorem mergePhase_fst_le (user : String) (cd : List Activity) (cutoff : Nat)
    (desc : Bool) (m : Nat) (hm : m ≠ 0) (hcd : cd ≠ [])
    (p : Option (List Activity) × CacheDB) (r : List Activity)
    (h : (mergePhase user cd cutoff desc (some m) p).1 = some r) : r.length ≤ m := by
  obtain ⟨po, pdb⟩ := p
  cases po with
  | none => simp [mergePhase] at h
  | some l =>
    simp only [mergePhase] at h
    rw [if_neg hcd] at h
    simp only [truncateMr] at h
    rw [if_neg hm] at h
    obtain rfl : (mergeData l cd cutoff desc).take m = r := Option.some.inj h
    exact List.length_take_le m _

/-- C5 amended: the maxRecords bound holds whenever the cache is nonempty,
because the merge phase truncates the merged list (src/activity.py lines
829-831); with an empty cache the window-truncated final page can push the
returned list past maxRecords (see the counterexample), since the stop at
line 727 precedes the truncating check at line 732 and the empty-cache
return path applies no truncation. -/
theorem getAll_maxRecords_merge_path (db : CacheDB) (user : String)
    (fetch : Nat → Nat → Option (List Activity)) (cutoff : Nat) (desc : Bool)
    (batchSize : Nat) (m : Nat) (hm : m ≠ 0)
    (hcd : get_all_cached_activities db user desc ≠ [])
    (r : List Activity)
    (hr : (get_all_user_activity db user fetch cutoff desc batchSize (some m) true).1 =
      some r) :
    r.length ≤ m := by
  simp only [get_all_user_activity] at hr
  exact mergePhase_fst_le user _ cutoff desc m hm hcd _ r hr

/-- Cached row used by the C5 witness. -/
def rowMrW : CacheRow := mkRow "u" ⟨7, 7, 1500, 0⟩

/-- Witness for the C5 amended theorem at a concrete input: with one cached
record, an upstream with no records, and maxRecords 1, getAll returns one
record, within the bound. -/
theorem getAll_maxRecords_merge_path_witness :
    ([(⟨7, 7, 1500, 0⟩ : Activity)]).length ≤ 1 :=
  getAll_maxRecords_merge_path [rowMrW] "u" (fun _ _ => some []) 1000 true 500 1
    (by decide) (by decide) [⟨7, 7, 1500, 0⟩] (by decide)

theorem streamLoop_fetch_none (user : String) (fetch : Nat → Nat → Option (List Activity))
    (cutoff bs : Nat) (mr : Option Nat) (uc : Bool) (fuel offset : Nat)
    (lm : Option Nat) (acc : List Activity) (db : CacheDB)
    (h : fetch bs offset = none) :
    streamLoop user fetch cutoff bs mr uc (fuel + 1) offset lm acc db = (none, db) := by
  simp only [streamLoop, h]

theorem mergePhase_nil_cd (user : String) (cutoff : Nat) (desc : Bool)
    (mr : Option Nat) (p : Option (List Activity) × CacheDB) :
    (mergePhase user [] cutoff desc mr p).1 = p.1 := by
  obtain ⟨po, pdb⟩ := p
  cases po <;> simp [mergePhase]

theorem probeStep_carry (fetch : Nat → Nat → Option (List Activity)) (cutoff bs : Nat)
    (cd : List Activity) (hcd : cd ≠ [])
    (fb : List Activity) (hf0 : fetch bs 0 = some fb) (hfb : fb ≠ [])
    (a : Activity) (ha : a ∈ probeFilter cutoff fb)
    (hnew : actKey a ∉ (probeFilter cutoff cd).map actKey) :
    probeStep fetch cutoff bs cd = (probeFilter cutoff fb, bs) := by
  simp only [probeStep]
  rw [if_neg hcd, hf0]
  simp only []
  rw [if_neg hfb]
  cases hpf : probeFilter cutoff fb with
  | nil => rw [hpf] at ha; exact absurd ha (List.not_mem_nil a)
  | cons f fs =>
    rw [hpf] at ha
    show (if ((f :: fs).all fun x => decide (actKey x ∈ (probeFilter cutoff cd).map actKey)) = true
      then (([] : List Activity), 0) else (f :: fs, bs)) = (f :: fs, bs)
    rw [if_neg ?_]
    intro hall
    have := List.all_eq_true.mp hall a ha
    rw [decide_eq_true_eq] at this
    exact hnew this

/-- C2 amended: a terminal fetch failure inside the STREAM loop always
raises (src/activity.py lines 748-749 re-raise the HTTPException), even
when the cache is nonempty and the probe page has already been accumulated;
only a failure of the PROBE fetch itself falls back to cached data.  Here
the probe carries a page forward (the cache is nonempty and the page holds
a key missing from the cache) and the first streamed fetch fails: getAll
raises instead of returning accumulated-plus-cached data. -/
theorem getAll_stream_failure_always_raises
    (db : CacheDB) (user : String) (fetch : Nat → Nat → Option (List Activity))
    (cutoff : Nat) (desc : Bool) (batchSize : Nat) (mr : Option Nat) (useCache : Bool)
    (hbs : batchSize ≤ 500)
    (hcd : get_all_cached_activities db user desc ≠ [])
    (fb : List Activity) (hf0 : fetch batchSize 0 = some fb) (hfb : fb ≠ [])
    (a : Activity) (ha : a ∈ probeFilter cutoff fb)
    (hnew : actKey a ∉ (probeFilter cutoff (get_all_cached_activities db user desc)).map actKey)
    (hfail : fetch batchSize batchSize = none) :
    (get_all_user_activity db user fetch cutoff desc batchSize mr useCache).1 = none := by
  have hbsmin : min batchSize 500 = batchSize := Nat.min_eq_left hbs
  have hprobe := probeStep_carry fetch cutoff batchSize
    (get_all_cached_activities db user desc) hcd fb hf0 hfb a ha hnew
  have hne : probeFilter cutoff fb ≠ [] := by
    intro h
    rw [h] at ha
    exact absurd ha (List.not_mem_nil a)
  simp only [get_all_user_activity, hbsmin, hprobe]
  rw [if_neg (fun hcon => hne hcon.1)]
  rw [show (10002 : Nat) = 10001 + 1 from rfl]
  rw [streamLoop_fetch_none user fetch cutoff batchSize mr useCache 10001 batchSize
    none (probeFilter cutoff fb) db hfail]
  simp [mergePhase]

/-- Cached row used by the C2 amended witness. -/
def rowStrW : CacheRow := mkRow "u" ⟨8, 8, 1500, 0⟩

/-- Upstream used by the C2 amended witness: a probe page with a new key,
then terminal failures. -/
def pagesStrW : Nat → Nat → Option (List Activity) :=
  fun _ off => if off = 0 then some [⟨1, 1, 1400, 0⟩] else none

/-- Witness for the C2 amended theorem at a concrete input. -/
theorem getAll_stream_failure_always_raises_witness :
    (get_all_user_activity [rowStrW] "u" pagesStrW 1000 true 500 none true).1 = none :=
  getAll_stream_failure_always_raises [rowStrW] "u" pagesStrW 1000 true 500 none true
    (by decide) (by decide) [⟨1, 1, 1400, 0⟩] (by decide) (by decide)
    ⟨1, 1, 1400, 0⟩ (by decide) (by decide) (by decide)

theorem dedupByKey_cons_ne_nil (a : Activity) (l : List Activity) :
    dedupByKey (a :: l) ≠ [] := by
  simp [dedupByKey, dedupAux]

theorem streamLoop_step_continue (user : String)
    (fetch : Nat → Nat → Option (List Activity)) (cutoff bs : Nat) (mr : Option Nat)
    (uc : Bool) (fuel offset : Nat) (lm : Option Nat) (acc : List Activity)
    (db : CacheDB) (batch : List Activity) (hf : fetch bs offset = some batch)
    (hb : batch ≠ []) (f : Activity) (fs : List Activity)
    (hw : windowFilter cutoff batch = f :: fs)
    (hinv : inversionStop lm (normTs f.timestamp) = false)
    (hlen : ¬ (f :: fs).length < batch.length)
    (hmr : mrHit mr (acc ++ dedupByKey (f :: fs)).length = false)
    (hoff : ¬ 10000 < offset + bs) :
    streamLoop user fetch cutoff bs mr uc (fuel + 1) offset lm acc db =
      streamLoop user fetch cutoff bs mr uc fuel (offset + bs)
        (if dedupByKey (f :: fs) = [] then lm else some (minNormTs (dedupByKey (f :: fs))))
        (acc ++ dedupByKey (f :: fs))
        (if uc && decide (dedupByKey (f :: fs) ≠ [])
         then save_activities user (dedupByKey (f :: fs)) db else db) := by
  simp only [streamLoop, hf, hw]
  rw [if_neg hb]
  rw [hinv]
  simp only [Bool.false_eq_true, if_false]
  rw [if_neg hlen]
  rw [hmr]
  simp only [Bool.false_eq_true, if_false]
  rw [if_neg hoff]

theorem streamLoop_step_inversion (user : String)
    (fetch : Nat → Nat → Option (List Activity)) (cutoff bs : Nat) (mr : Option Nat)
    (uc : Bool) (fuel offset : Nat) (lm : Option Nat) (acc : List Activity)
    (db : CacheDB) (batch : List Activity) (hf : fetch bs offset = some batch)
    (hb : batch ≠ []) (f : Activity) (fs : List Activity)
    (hw : windowFilter cutoff batch = f :: fs)
    (hinv : inversionStop lm (normTs f.timestamp) = true) :
    streamLoop user fetch cutoff bs mr uc (fuel + 1) offset lm acc db = (some acc, db) := by
  simp only [streamLoop, hf, hw]
  rw [if_neg hb]
  rw [hinv]
  simp only [if_true]

theorem streamLoop_two_page_abort
    (user : String) (fetch : Nat → Nat → Option (List Activity)) (cutoff bs : Nat)
    (uc : Bool) (db : CacheDB) (hbs1 : 1 ≤ bs) (hbs : bs ≤ 500)
    (h : Activity) (t : List Activity)
    (hf1 : fetch bs 0 = some (h :: t))
    (hw1 : windowFilter cutoff (h :: t) = h :: t)
    (p2 : List Activity) (hf2 : fetch bs bs = some p2)
    (g : Activity) (gs : List Activity) (hw2 : windowFilter cutoff p2 = g :: gs)
    (hinv : minNormTs (dedupByKey (h :: t)) < normTs g.timestamp) :
    (streamLoop user fetch cutoff bs none uc 10002 0 none [] db).1 =
      some (dedupByKey (h :: t)) := by
  have hp2 : p2 ≠ [] := by
    intro e
    rw [e] at hw2
    simp [windowFilter] at hw2
  rw [show (10002 : Nat) = 10001 + 1 from rfl]
  rw [streamLoop_step_continue user fetch cutoff bs none uc 10001 0 none [] db
    (h :: t) hf1 (List.cons_ne_nil h t) h t hw1 rfl (lt_irrefl (h :: t).length) rfl
    (by omega)]
  rw [if_neg (dedupByKey_cons_ne_nil h t), List.nil_append, Nat.zero_add]
  rw [show (10001 : Nat) = 10000 + 1 from rfl]
  rw [streamLoop_step_inversion user fetch cutoff bs none uc 10000 bs _ _ _
    p2 hf2 hp2 g gs hw2 (by simp only [inversionStop]; exact decide_eq_true hinv)]

/-- C8 amended: the order-inversion guard fires only between consecutive
STREAM pages.  last_batch_min_timestamp is set from each streamed page
(src/activity.py lines 703-709) and checked against the next page (lines
670-685), but it is initialized to None after the PROBE block (line 619),
so the guard never compares a streamed page against the carried-forward
probe page (see the counterexample).  Between streamed pages it behaves as
claimed: with an empty cache, a full in-window first page and a second page
whose first retained timestamp exceeds the first page's minimum, the stream
stops and none of the second page's records are returned. -/
theorem inversion_guard_between_stream_pages
    (db : CacheDB) (user : String) (fetch : Nat → Nat → Option (List Activity))
    (cutoff : Nat) (desc : Bool) (batchSize : Nat) (uc : Bool)
    (hbs1 : 1 ≤ batchSize) (hbs : batchSize ≤ 500)
    (hcd : get_all_cached_activities db user desc = [])
    (h : Activity) (t : List Activity)
    (hf1 : fetch batchSize 0 = some (h :: t))
    (hw1 : windowFilter cutoff (h :: t) = h :: t)
    (p2 : List Activity) (hf2 : fetch batchSize batchSize = some p2)
    (g : Activity) (gs : List Activity) (hw2 : windowFilter cutoff p2 = g :: gs)
    (hinv : minNormTs (dedupByKey (h :: t)) < normTs g.timestamp) :
    (get_all_user_activity db user fetch cutoff desc batchSize none uc).1 =
      some (dedupByKey (h :: t)) := by
  have hbsmin : min batchSize 500 = batchSize := Nat.min_eq_left hbs
  simp only [get_all_user_activity, hbsmin, hcd]
  rw [show probeStep fetch cutoff batchSize [] = ([], 0) from by simp [probeStep]]
  rw [if_neg (fun hcon => hcon.2 rfl)]
  rw [mergePhase_nil_cd]
  exact streamLoop_two_page_abort user fetch cutoff batchSize uc db hbs1 hbs h t
    hf1 hw1 p2 hf2 g gs hw2 hinv

/-- Upstream used by the C8 amended witness: a first page with timestamp
1500 and a second page whose first timestamp 1600 exceeds it. -/
def pagesInvW : Nat → Nat → Option (List Activity) :=
  fun _ off =>
    if off = 0 then some [⟨1, 1, 1500, 0⟩]
    else if off = 500 then some [⟨2, 2, 1600, 0⟩] else some []

/-- Witness for the C8 amended theorem at a concrete input. -/
theorem inversion_guard_between_stream_pages_witness :
    (get_all_user_activity [] "u" pagesInvW 1000 true 500 none true).1 =
      some (dedupByKey [⟨1, 1, 1500, 0⟩]) :=
  inversion_guard_between_stream_pages [] "u" pagesInvW 1000 true 500 true
    (by decide) (by decide) (by decide) ⟨1, 1, 1500, 0⟩ [] (by decide) (by decide)
    [⟨2, 2, 1600, 0⟩] (by decide) ⟨2, 2, 1600, 0⟩ [] (by decide) (by decide)

/-- C3 amended: the divide-by-1000 normalization of millisecond-scale
timestamps is applied to window-filter comparisons (and to the inversion
guard), but not to storage or to the merge sort: the timestamp column
written by the cache upsert holds the raw value, and the merged
streamed-plus-cached result is ordered by the raw timestamp field (here
stated as sortedness of the merge output under the raw-timestamp
relation). -/
theorem timestamp_normalization_scope (user : String) (api cached : List Activity)
    (cutoff : Nat) (desc : Bool) (a : Activity) :
    (mkRow user a).timestamp = a.timestamp ∧
    (probeFilter cutoff [a] = [a] ↔ cutoff ≤ normTs a.timestamp) ∧
    (mergeData api cached cutoff desc).Sorted (tsLeProp desc) := by
  refine ⟨rfl, ?_, ?_⟩
  · constructor
    · intro h
      by_contra hc
      simp [probeFilter, hc] at h
    · intro h
      simp [probeFilter, h]
  · exact List.sorted_insertionSort (tsLeProp desc) _

end Polyview
